import Mathlib

/-!
Shallow embedding of the tm-microbit-app core (Teachable Machine → micro:bit
bridge): the Output Gate / radio framing in `js/bluetooth.js`, the prediction
validation and dispatch in `js/predictions.js`, the model-kind resolver in
`model-loader.js`, and the camera facing-mode switch in `js/predictions.js`.

JavaScript strings are modelled as `List Char` (one entry per Unicode code
point).  `String.prototype.substring` counts UTF-16 code units, while
`TextEncoder` produces UTF-8 bytes; both unit counts are defined below from
the code-point value.  JavaScript numbers are modelled as `ℚ` where only
finite values occur, and as `JSNum` (finite / NaN / ±∞) where the code
explicitly tests for NaN or infinity.
-/

namespace TMApp

/-- JavaScript string, one list entry per Unicode code point. -/
abbrev JSString := List Char

/-- Number of bytes `TextEncoder` produces for one code point (UTF-8). -/
def utf8Bytes (c : Char) : Nat :=
  if c.val.toNat ≤ 0x7F then 1
  else if c.val.toNat ≤ 0x7FF then 2
  else if c.val.toNat ≤ 0xFFFF then 3
  else 4

/-- Number of UTF-16 code units a code point occupies in a JS string. -/
def utf16Units (c : Char) : Nat :=
  if c.val.toNat ≤ 0xFFFF then 1 else 2

/-- Byte length of the `TextEncoder` encoding of a JS string. -/
def utf8Len : JSString → Nat
  | [] => 0
  | c :: cs => utf8Bytes c + utf8Len cs

/-- `s.substring(0, n)` where `n` counts UTF-16 code units.  (When the cut
falls inside a surrogate pair the model stops before the pair instead of
keeping a lone surrogate; every string in this development is within the
Basic Multilingual Plane, where both behaviours agree.) -/
def jsSubstringTo (n : Nat) : JSString → JSString
  | [] => []
  | c :: cs =>
    if utf16Units c ≤ n then c :: jsSubstringTo (n - utf16Units c) cs else []

/-- `hay.startsWith(pat)` on code-point lists. -/
def jsStartsWith : JSString → JSString → Bool
  | _, [] => true
  | [], _ :: _ => false
  | c :: cs, p :: ps => c = p && jsStartsWith cs ps

/-- `hay.includes(pat)`: substring containment. -/
def jsIncludes : JSString → JSString → Bool
  | [], pat => pat.isEmpty
  | c :: cs, pat => jsStartsWith (c :: cs) pat || jsIncludes cs pat

/-- Decimal digit character (only ever applied to values `< 10`). -/
def digitChar : Nat → Char
  | 0 => '0' | 1 => '1' | 2 => '2' | 3 => '3' | 4 => '4'
  | 5 => '5' | 6 => '6' | 7 => '7' | 8 => '8' | 9 => '9'
  | _ => '0'

/-- Fuel-driven decimal printer for naturals (most significant digit first). -/
def natToDigitsAux : Nat → Nat → List Char
  | 0, _ => []
  | fuel + 1, n =>
    if n < 10 then [digitChar n]
    else natToDigitsAux fuel (n / 10) ++ [digitChar (n % 10)]

/-- Decimal representation of a natural, as JS `String(n)` produces it. -/
def natToDigits (n : Nat) : List Char := natToDigitsAux (n + 1) n

/-- JS number-to-string conversion restricted to integers (template literal
`${confidenceRounded}` in `sendToMicrobit`). -/
def intToString (i : Int) : JSString :=
  if i < 0 then '-' :: natToDigits i.natAbs else natToDigits i.natAbs

/-- `Math.round`: round half toward `+∞` (JS semantics on finite doubles). -/
def jsRound (q : ℚ) : Int := ⌊q + 1 / 2⌋

/-! ## Output Gate state and `sendToMicrobit` (js/bluetooth.js lines 99-149) -/

/-- Output Gate state: module-level `lastSentClass` / `lastSentConfidence`
in `js/bluetooth.js` (initially `''` and `0`). -/
structure GateState where
  lastSentClass : JSString
  lastSentConfidence : Int
deriving DecidableEq, Repr

/-- Initial module state: `lastSentClass = ''`, `lastSentConfidence = 0`. -/
def initGateState : GateState := ⟨[], 0⟩

/-- The message string `` `${className}#${confidenceRounded}\n` ``. -/
def encodeFrame (className : JSString) (r : Int) : JSString :=
  (className ++ '#' :: intToString r) ++ ['\n']

/-- The byte frame actually handed to `writeValueWithoutResponse`: the
encoded message, or `message.substring(0, 17) + '\n'` when the encoding
exceeds 20 bytes (js/bluetooth.js lines 123-133). -/
def frameSent (className : JSString) (r : Int) : JSString :=
  if 20 < utf8Len (encodeFrame className r) then
    jsSubstringTo 17 (encodeFrame className r) ++ ['\n']
  else encodeFrame className r

/-- Result of one `sendToMicrobit` call: the new module state, the frame
handed to the characteristic write (`none` when no write was attempted),
and whether the catch-branch error status was shown. -/
structure SendResult where
  state : GateState
  written : Option JSString
  errorShown : Bool
deriving DecidableEq, Repr

/-- `sendToMicrobit(className, confidence)` from `js/bluetooth.js`:
returns immediately when no characteristic is bound; suppresses the send
when the class is unchanged and the rounded confidence moved less than 5;
otherwise updates the module state *before* the try-block and writes the
(possibly truncated) frame.  A write failure (`writeOk = false`) is caught
inside the function: an error status is shown and nothing is re-thrown. -/
def sendToMicrobit (writeOk : Bool) (hasCharacteristic : Bool)
    (st : GateState) (className : JSString) (confidence : ℚ) : SendResult :=
  if !hasCharacteristic then ⟨st, none, false⟩
  else
    let r := jsRound confidence
    if className = st.lastSentClass ∧ |r - st.lastSentConfidence| < 5 then
      ⟨st, none, false⟩
    else
      ⟨⟨className, r⟩, some (frameSent className r), !writeOk⟩

/-- Feed a sequence of `(className, confidence)` pairs through
`sendToMicrobit` (characteristic bound, writes succeeding); record at each
step whether a send was issued. -/
def runSendSeq (st : GateState) : List (JSString × ℚ) → List Bool
  | [] => []
  | (n, c) :: rest =>
    let r := sendToMicrobit true true st n c
    r.written.isSome :: runSendSeq r.state rest

/-! ## Predictions and validation (js/predictions.js lines 659-710) -/

/-- A JavaScript number as the prediction code observes it: a finite value,
NaN, or an infinity. -/
inductive JSNum where
  | num (q : ℚ)
  | nan
  | posInf
  | negInf
deriving DecidableEq, Repr

/-- `typeof x === 'number' && !isNaN(x) && isFinite(x)` for a `JSNum`. -/
def isFiniteNum : JSNum → Bool
  | .num _ => true
  | _ => false

/-- One entry of a PredictionSet: `{ className, probability }`. -/
structure Prediction where
  className : JSString
  probability : JSNum
deriving DecidableEq, Repr

/-- The validity filter of `displayPredictions`: class name truthy
(non-empty string) and probability a finite, non-NaN number.  The range
`[0, 1]` is *not* checked by the code. -/
def validPred (p : Prediction) : Bool :=
  !p.className.isEmpty && isFiniteNum p.probability

/-- Descending comparison used by `sort((a, b) => b.probability -
a.probability)` on the finite probabilities that survive the filter (the
non-finite cases never reach the sort; any total extension is adequate). -/
def probGe (x y : JSNum) : Bool :=
  match x, y with
  | .num a, .num b => b ≤ a
  | _, _ => true

/-- Stable insertion of one prediction into a descending-sorted list: a new
element goes after existing elements of equal probability, matching the
stability of `Array.prototype.sort`. -/
def insertDesc (p : Prediction) : List Prediction → List Prediction
  | [] => [p]
  | q :: qs =>
    if probGe p.probability q.probability ∧ ¬probGe q.probability p.probability
    then p :: q :: qs
    else q :: insertDesc p qs

/-- Stable descending sort by probability (model of the JS stable sort with
comparator `(a, b) => b.probability - a.probability`). -/
def sortDesc (l : List Prediction) : List Prediction :=
  l.foldl (fun acc p => insertDesc p acc) []

/-- `String.prototype.toLowerCase` (ASCII range, which covers every string
this code compares). -/
def jsToLower (s : JSString) : JSString := s.map Char.toLower

/-- The sentinel class name skipped before sending: `'ruido de fondo'`. -/
def backgroundName : JSString := "ruido de fondo".data

/-- `top.probability * 100` for the validated top prediction (only finite
values reach this point; the non-finite branch is never exercised). -/
def numTimes100 : JSNum → ℚ
  | .num q => q * 100
  | _ => 0

/-- Result of one `displayPredictions` call: the Output Gate state after
the call, the frame written to the radio (if any), and whether the call
got past validation to the sort / top-prediction-send section. -/
structure DisplayResult where
  state : GateState
  written : Option JSString
  downstream : Bool
deriving DecidableEq, Repr

/-- `displayPredictions(predictions)` from `js/predictions.js`
(lines 659-710): filter out entries with falsy class name or non-finite
probability; return early when nothing survives; otherwise sort descending
by probability and, when connected and the top class is not the background
sentinel, hand the top prediction to `sendToMicrobit` (probability scaled
to percent). -/
def displayPredictions (connected : Bool) (st : GateState)
    (preds : List Prediction) : DisplayResult :=
  let valid := preds.filter validPred
  if valid.isEmpty then ⟨st, none, false⟩
  else
    match sortDesc valid with
    | [] => ⟨st, none, true⟩
    | top :: _ =>
      if connected ∧ ¬(jsToLower top.className = backgroundName) then
        let r := sendToMicrobit true connected st top.className
          (numTimes100 top.probability)
        ⟨r.state, r.written, true⟩
      else ⟨st, none, true⟩

/-! ## Audio listener callback (js/predictions.js lines 414-432) -/

/-- `` `Class ${i}` ``: placeholder class name for a score index with no
word label. -/
def classPlaceholder (i : Nat) : JSString := "Class ".data ++ natToDigits i

/-- `wordLabels[i] || placeholder`: an out-of-range index yields
`undefined` and an empty label is falsy; both fall back to the
placeholder. -/
def audioLabelAt (labels : List JSString) (i : Nat) : JSString :=
  let l := labels.getD i []
  if l.isEmpty then classPlaceholder i else l

/-- Pair each list element with its index (the `(score, i)` of
`scoresArray.map((score, i) => ...)`). -/
def withIdx (i : Nat) : List JSNum → List (Nat × JSNum)
  | [] => []
  | s :: ss => (i, s) :: withIdx (i + 1) ss

/-- The PredictionSet the audio listener callback builds: scores zipped
positionally with the label list, missing labels replaced by
placeholders. -/
def audioPredictions (labels : List JSString) (scores : List JSNum) :
    List Prediction :=
  (withIdx 0 scores).map fun p => ⟨audioLabelAt labels p.1, p.2⟩

/-- One audio listener cycle: build the PredictionSet from the raw score
vector and hand it to `displayPredictions`. -/
def audioCycle (connected : Bool) (st : GateState)
    (labels : List JSString) (scores : List JSNum) : DisplayResult :=
  displayPredictions connected st (audioPredictions labels scores)

/-! ## Model-kind resolver (model-loader.js, variant with `findInputShape`) -/

/-- The three model kinds. -/
inductive MType where
  | image
  | pose
  | audio
deriving DecidableEq, Repr

/-- `detectModelTypeFromURL(url)`: first matching kind-naming URL segment,
checked in the order image, pose, audio. -/
def detectModelTypeFromURL (url : JSString) : Option MType :=
  if jsIncludes url ("/image/".data) then some .image
  else if jsIncludes url ("/pose/".data) then some .pose
  else if jsIncludes url ("/audio/".data) then some .audio
  else none

/-- The metadata document as the resolver observes it: truthiness of the
three audio marker fields, and `JSON.stringify(metadata).toLowerCase()` as
a string. -/
structure Metadata where
  tmSoundModelVersion : Bool
  audioSampleRate : Bool
  wordLabels : Bool
  text : JSString
deriving DecidableEq, Repr

/-- Step 1 of `detectModelTypeFromMetadata`: audio marker fields, then the
lowercased-stringified-metadata substring checks, in source order; `none`
when this step falls through to the weight-graph inspection. -/
def metadataVerdict (m : Metadata) : Option MType :=
  if m.tmSoundModelVersion || m.audioSampleRate || m.wordLabels then
    some .audio
  else if jsIncludes m.text ("@teachablemachine/pose".data)
      || jsIncludes m.text ("teachablemachine-pose".data)
      || jsIncludes m.text ("\"pose\"".data) then some .pose
  else if jsIncludes m.text ("@teachablemachine/image".data)
      || jsIncludes m.text ("teachablemachine-image".data) then some .image
  else if jsIncludes m.text ("speechcommands".data)
      || jsIncludes m.text ("audio".data) then some .audio
  else none

/-- Step 2 of `detectModelTypeFromMetadata`: map the input tensor shape
found in the weight-graph descriptor (`none` when `model.json` was
unreachable or `findInputShape` found nothing; shape entries are numbers
or `null`).  A 2-entry shape is pose; a 4-entry shape with channel depth 1
and spatial size other than 224×224 is audio; everything else falls
through to the image default — no error is raised. -/
def detectFromShape (shape : Option (List (Option Int))) : MType :=
  match shape with
  | none => .image
  | some s =>
    if s.length = 2 then .pose
    else
      match s with
      | [_, h, w, c] =>
        if c = some 1 ∧ (h ≠ some 224 ∨ w ≠ some 224) then .audio
        else .image
      | _ => .image

/-- `detectModelTypeFromMetadata(baseURL)`: a fetch failure of
`metadata.json` throws (`none`); otherwise the metadata verdict decides,
and only when it falls through is the weight-graph shape consulted. -/
def detectModelTypeFromMetadata (md : Option Metadata)
    (shape : Option (List (Option Int))) : Option MType :=
  match md with
  | none => none
  | some m =>
    match metadataVerdict m with
    | some t => some t
    | none => some (detectFromShape shape)

/-- The kind-detection portion of `loadModel`: URL pattern first, metadata
(and, within it, topology) only when the URL names no kind. -/
def detectKind (url : JSString) (md : Option Metadata)
    (shape : Option (List (Option Int))) : Option MType :=
  match detectModelTypeFromURL url with
  | some t => some t
  | none => detectModelTypeFromMetadata md shape

/-! ## Facing-mode switch (js/predictions.js lines 739-771) -/

/-- Camera facing mode: `'user'` (front) or `'environment'` (back). -/
inductive Facing where
  | user
  | environment
deriving DecidableEq, Repr

/-- The toggle `prevFacingMode === 'user' ? 'environment' : 'user'`. -/
def flipFacing : Facing → Facing
  | .user => .environment
  | .environment => .user

/-- Capture state: the current facing mode and whether a webcam stream is
open and playing. -/
structure CamState where
  facingMode : Facing
  streamActive : Bool
deriving DecidableEq, Repr

/-- `setupWebcam` / `setupPoseWebcam` for a given facing mode, against an
acquisition oracle saying which facing modes the platform can open:
success yields an active stream bound to that mode, failure throws
(`none`).  (These setups re-throw their errors — js/predictions.js lines
331-334 and 376-379.) -/
def setupCam (acquire : Facing → Bool) (mode : Facing) : Option CamState :=
  if acquire mode then some ⟨mode, true⟩ else none

/-- `flipCamera()` (image/pose path): flip the desired facing mode, tear
down the current webcam, and re-run the full setup; on setup failure
revert the facing mode, re-run setup for the original mode, and return
`false` instead of re-throwing.  `none` models an exception escaping
(only possible when the revert setup itself fails). -/
def flipCamera (acquire : Facing → Bool) (st : CamState) :
    Option (CamState × Bool) :=
  match setupCam acquire (flipFacing st.facingMode) with
  | some st2 => some (st2, true)
  | none =>
    match setupCam acquire st.facingMode with
    | some st2 => some (st2, false)
    | none => none

/-! ## Transport teardown (js/bluetooth.js lines 74-93, 154-156) -/

/-- Transport session state: the three module-level handles of
`js/bluetooth.js` (`null` = `none`) and the externally-visible connection
indicator driven by `showStatus` / the button toggles. -/
structure TransportState where
  microbitDevice : Option Nat
  uartService : Option Nat
  rxCharacteristic : Option Nat
  uiConnected : Bool
deriving DecidableEq, Repr

/-- `onDisconnected()`: nulls the service, characteristic and device
handles and flips the externally-visible state to disconnected.  This same
function is registered as the `gattserverdisconnected` listener, so the
peripheral-initiated path runs exactly this routine. -/
def onDisconnected (_ : TransportState) : TransportState :=
  ⟨none, none, none, false⟩

/-- `disconnectMicrobit()`: ask the GATT layer to disconnect (an external
effect with no bearing on the module state) and run `onDisconnected`. -/
def disconnectMicrobit (st : TransportState) : TransportState :=
  onDisconnected st

/-- `isConnected()`: `rxCharacteristic !== null`. -/
def isConnected (st : TransportState) : Bool :=
  st.rxCharacteristic.isSome

/-! ## Helper lemmas -/

theorem utf8Len_append (a b : JSString) :
    utf8Len (a ++ b) = utf8Len a + utf8Len b := by
  induction a with
  | nil => simp [utf8Len]
  | cons c cs ih => simp [utf8Len, ih]; omega

theorem utf8Bytes_ascii {c : Char} (h : c.val.toNat ≤ 127) :
    utf8Bytes c = 1 := by
  unfold utf8Bytes
  rw [if_pos (by omega)]

theorem utf16Units_ascii {c : Char} (h : c.val.toNat ≤ 127) :
    utf16Units c = 1 := by
  unfold utf16Units
  rw [if_pos (by omega)]

theorem jsSubstringTo_ascii_le :
    ∀ l : JSString, (∀ c ∈ l, c.val.toNat ≤ 127) → ∀ n,
      utf8Len (jsSubstringTo n l) ≤ n
  | [], _, n => by simp [jsSubstringTo, utf8Len]
  | c :: cs, h, n => by
    have hc : c.val.toNat ≤ 127 := h c (List.mem_cons_self c cs)
    have hcs : ∀ x ∈ cs, x.val.toNat ≤ 127 :=
      fun x hx => h x (List.mem_cons_of_mem c hx)
    rw [jsSubstringTo, utf16Units_ascii hc]
    split
    · rename_i hn
      rw [utf8Len, utf8Bytes_ascii hc]
      have := jsSubstringTo_ascii_le cs hcs (n - 1)
      omega
    · simp [utf8Len]

theorem digitChar_ascii (n : Nat) : (digitChar n).val.toNat ≤ 127 := by
  unfold digitChar; split <;> decide

theorem natToDigitsAux_ascii :
    ∀ fuel n : Nat, ∀ c ∈ natToDigitsAux fuel n, c.val.toNat ≤ 127
  | 0, n => by simp [natToDigitsAux]
  | fuel + 1, n => by
    rw [natToDigitsAux]
    split
    · intro c hc
      rw [List.mem_singleton] at hc
      exact hc ▸ digitChar_ascii n
    · intro c hc
      rcases List.mem_append.mp hc with h1 | h2
      · exact natToDigitsAux_ascii fuel (n / 10) c h1
      · rw [List.mem_singleton] at h2
        exact h2 ▸ digitChar_ascii (n % 10)

theorem intToString_ascii (i : Int) :
    ∀ c ∈ intToString i, c.val.toNat ≤ 127 := by
  intro c hc
  unfold intToString at hc
  split at hc
  · rcases List.mem_cons.mp hc with h1 | h2
    · subst h1; decide
    · exact natToDigitsAux_ascii _ _ c h2
  · exact natToDigitsAux_ascii _ _ c hc

theorem encodeFrame_ascii (name : JSString) (r : Int)
    (h : ∀ c ∈ name, c.val.toNat ≤ 127) :
    ∀ c ∈ encodeFrame name r, c.val.toNat ≤ 127 := by
  intro c hc
  unfold encodeFrame at hc
  rcases List.mem_append.mp hc with h1 | h2
  · rcases List.mem_append.mp h1 with h3 | h4
    · exact h c h3
    · rcases List.mem_cons.mp h4 with h5 | h6
      · subst h5; decide
      · exact intToString_ascii r c h6
  · rw [List.mem_singleton] at h2
    subst h2; decide

theorem sendToMicrobit_not_connected (w : Bool) (st : GateState)
    (name : JSString) (conf : ℚ) :
    sendToMicrobit w false st name conf = ⟨st, none, false⟩ := rfl

theorem sendToMicrobit_suppressed (w : Bool) (st : GateState)
    (name : JSString) (conf : ℚ)
    (hc : name = st.lastSentClass ∧
      |jsRound conf - st.lastSentConfidence| < 5) :
    sendToMicrobit w true st name conf = ⟨st, none, false⟩ := by
  simp [sendToMicrobit, hc]

theorem sendToMicrobit_sends (w : Bool) (st : GateState)
    (name : JSString) (conf : ℚ)
    (hc : ¬(name = st.lastSentClass ∧
      |jsRound conf - st.lastSentConfidence| < 5)) :
    sendToMicrobit w true st name conf =
      ⟨⟨name, jsRound conf⟩, some (frameSent name (jsRound conf)), !w⟩ := by
  simp only [sendToMicrobit, Bool.not_true]
  rw [if_neg (by simp), if_neg hc]

theorem mem_insertDesc {p q : Prediction} :
    ∀ {l : List Prediction}, p ∈ insertDesc q l → p = q ∨ p ∈ l
  | [], h => by
    rw [insertDesc] at h
    exact Or.inl (List.mem_singleton.mp h)
  | r :: rs, h => by
    rw [insertDesc] at h
    split at h
    · rcases List.mem_cons.mp h with h1 | h2
      · exact Or.inl h1
      · exact Or.inr h2
    · rcases List.mem_cons.mp h with h1 | h2
      · exact Or.inr (h1 ▸ List.mem_cons_self r rs)
      · rcases mem_insertDesc h2 with h3 | h4
        · exact Or.inl h3
        · exact Or.inr (List.mem_cons_of_mem r h4)

theorem mem_foldl_insertDesc {p : Prediction} :
    ∀ (l acc : List Prediction),
      p ∈ l.foldl (fun a q => insertDesc q a) acc → p ∈ acc ∨ p ∈ l
  | [], acc, h => Or.inl h
  | q :: qs, acc, h => by
    rw [List.foldl_cons] at h
    rcases mem_foldl_insertDesc qs (insertDesc q acc) h with h1 | h2
    · rcases mem_insertDesc h1 with h3 | h4
      · exact Or.inr (h3 ▸ List.mem_cons_self q qs)
      · exact Or.inl h4
    · exact Or.inr (List.mem_cons_of_mem q h2)

theorem mem_sortDesc {p : Prediction} {l : List Prediction}
    (h : p ∈ sortDesc l) : p ∈ l := by
  rcases mem_foldl_insertDesc l [] h with h1 | h2
  · exact absurd h1 (List.not_mem_nil p)
  · exact h2

theorem withIdx_length (l : List JSNum) : ∀ i, (withIdx i l).length = l.length := by
  induction l with
  | nil => intro i; rfl
  | cons s ss ih => intro i; simp [withIdx, ih]

theorem mem_withIdx {q : Nat × JSNum} :
    ∀ {l : List JSNum} {i : Nat}, q ∈ withIdx i l → q.2 ∈ l
  | [], _, h => absurd h (List.not_mem_nil q)
  | s :: ss, i, h => by
    rw [withIdx] at h
    rcases List.mem_cons.mp h with h1 | h2
    · simp [h1]
    · exact List.mem_cons_of_mem s (mem_withIdx h2)

theorem classPlaceholder_ne_nil (i : Nat) : classPlaceholder i ≠ [] := by
  intro h
  have := congrArg List.length h
  simp [classPlaceholder] at this

theorem audioLabelAt_ne_nil (labels : List JSString) (i : Nat) :
    audioLabelAt labels i ≠ [] := by
  rw [audioLabelAt]
  split
  · exact classPlaceholder_ne_nil i
  · rename_i h
    simp only [List.isEmpty_iff] at h
    exact h

/-! ## Claim theorems -/

/-- C1, counterexample: the claim is false for non-ASCII class names.  For
the 19-character class name `ñ…ñ` and confidence 90, the encoded message is
42 bytes, so the code truncates — but `substring(0, 17)` counts UTF-16
code units, not bytes, and the truncated frame is still 35 bytes, over the
20-byte cap. -/
theorem frame_overflow_counterexample :
    20 < utf8Len (frameSent (List.replicate 19 'ñ') 90) := by decide

/-- C1 (amended): for class names of ASCII characters — every character the
truncation arithmetic was written for — the frame handed to the radio write
is at most 20 bytes and its last character is the terminator `'\n'`; the
message is truncated rather than dropped. -/
theorem frame_ascii_bounded (name : JSString) (r : Int)
    (h : ∀ c ∈ name, c.val.toNat ≤ 127) :
    utf8Len (frameSent name r) ≤ 20 ∧
    (frameSent name r).getLast? = some '\n' := by
  rw [frameSent]
  split
  · constructor
    · rw [utf8Len_append]
      have h17 := jsSubstringTo_ascii_le (encodeFrame name r)
        (encodeFrame_ascii name r h) 17
      have h1 : utf8Len ['\n'] = 1 := by decide
      omega
    · exact List.getLast?_concat _
  · rename_i h20
    refine ⟨by omega, ?_⟩
    rw [encodeFrame]
    exact List.getLast?_concat _

/-- C1, witness for the amended theorem at className `"Cat"`,
rounded confidence 80. -/
theorem frame_ascii_bounded_witness :
    utf8Len (frameSent ("Cat".data) 80) ≤ 20 ∧
    (frameSent ("Cat".data) 80).getLast? = some '\n' :=
  frame_ascii_bounded ("Cat".data) 80 (by decide)

/-- C2: while a characteristic is bound, a `sendToMicrobit` call issues a
write iff the class name differs from the last sent class or the rounded
confidence moved at least 5 from the last sent value; and the sequence
(A,90),(A,92),(A,80),(B,80) from the initial state issues sends at
indices 0, 2, 3 only. -/
theorem delta_filter_spec :
    (∀ (w : Bool) (st : GateState) (name : JSString) (conf : ℚ),
        (sendToMicrobit w true st name conf).written ≠ none ↔
          (name ≠ st.lastSentClass ∨
            5 ≤ |jsRound conf - st.lastSentConfidence|)) ∧
    runSendSeq initGateState
        [("A".data, 90), ("A".data, 92), ("A".data, 80), ("B".data, 80)] =
      [true, false, true, true] := by
  constructor
  · intro w st name conf
    by_cases hc : name = st.lastSentClass ∧
        |jsRound conf - st.lastSentConfidence| < 5
    · rw [sendToMicrobit_suppressed w st name conf hc]
      obtain ⟨h1, h2⟩ := hc
      simp [h1]
      omega
    · rw [sendToMicrobit_sends w st name conf hc]
      have hr : name ≠ st.lastSentClass ∨
          5 ≤ |jsRound conf - st.lastSentConfidence| := by
        rcases not_and_or.mp hc with h | h
        · exact Or.inl h
        · exact Or.inr (le_of_not_lt h)
      simp [hr]
  · have h90 : jsRound 90 = 90 := by norm_num [jsRound]
    have h92 : jsRound 92 = 92 := by norm_num [jsRound]
    have h80 : jsRound 80 = 80 := by norm_num [jsRound]
    rw [runSendSeq, sendToMicrobit_sends true initGateState ("A".data) 90
      (by simp [initGateState])]
    rw [runSendSeq, h90, sendToMicrobit_suppressed true _ ("A".data) 92
      (by constructor <;> simp [h92])]
    rw [runSendSeq, sendToMicrobit_sends true _ ("A".data) 80
      (by simp [h80, h90])]
    rw [runSendSeq, h80, sendToMicrobit_sends true _ ("B".data) 80
      (by simp)]
    rw [runSendSeq]
    simp

/-- C3, counterexample: the claim is false — the filter in
`displayPredictions` never checks that the probability lies in `[0, 1]`.
A prediction with probability 2 (finite, non-NaN, out of range) passes the
filter, reaches the sort/send section, and a frame for confidence 200 is
written. -/
theorem validation_range_counterexample :
    validPred ⟨"A".data, JSNum.num 2⟩ = true ∧
    ¬((2 : ℚ) ≤ 1) ∧
    (displayPredictions true initGateState [⟨"A".data, JSNum.num 2⟩]).written
      = some (frameSent ("A".data) 200) := by
  refine ⟨by decide, by norm_num, ?_⟩
  have h200 : jsRound (numTimes100 (JSNum.num 2)) = 200 := by
    norm_num [jsRound, numTimes100]
  have hsend : sendToMicrobit true true initGateState ['A']
      (numTimes100 (JSNum.num 2)) =
      ⟨⟨['A'], 200⟩, some (frameSent ['A'] 200), false⟩ := by
    rw [sendToMicrobit_sends true initGateState ['A']
      (numTimes100 (JSNum.num 2)) (by simp [initGateState]), h200]
    rfl
  have hfil : List.filter validPred [⟨['A'], JSNum.num 2⟩] =
      [⟨['A'], JSNum.num 2⟩] := by decide
  have hsort : sortDesc [(⟨['A'], JSNum.num 2⟩ : Prediction)] =
      [⟨['A'], JSNum.num 2⟩] := by decide
  have hbg : ¬(jsToLower ['A'] = backgroundName) := by decide
  simp [displayPredictions, hfil, hsort, hbg, hsend]

/-- C3 (amended): every prediction that reaches the sort / top-prediction
send has a non-empty class name and a finite, non-NaN probability (the
range `[0, 1]` is not checked); a set in which every entry fails that
filter produces no downstream work and no send. -/
theorem validation_filter_spec :
    (∀ (preds : List Prediction) (p : Prediction),
        p ∈ sortDesc (List.filter validPred preds) → validPred p = true) ∧
    (∀ (preds : List Prediction) (connected : Bool) (st : GateState),
        (∀ p ∈ preds, validPred p = false) →
          displayPredictions connected st preds = ⟨st, none, false⟩) := by
  constructor
  · intro preds p hp
    exact (List.mem_filter.mp (mem_sortDesc hp)).2
  · intro preds connected st h
    have hfil : List.filter validPred preds = [] := by
      rw [List.filter_eq_nil_iff]
      intro p hp
      simp [h p hp]
    simp [displayPredictions, hfil]

/-- C3, witness: a valid entry survives to the gate; a fully-invalid set
(NaN probability, empty class name, infinite probability) yields no
downstream call and no send. -/
theorem validation_filter_spec_witness :
    validPred ⟨"A".data, JSNum.num 1⟩ = true ∧
    displayPredictions true initGateState
        [⟨"A".data, JSNum.nan⟩, ⟨[], JSNum.num 1⟩, ⟨"B".data, JSNum.posInf⟩]
      = ⟨initGateState, none, false⟩ :=
  ⟨validation_filter_spec.1 [⟨"A".data, JSNum.num 1⟩] ⟨"A".data, JSNum.num 1⟩
      (by decide),
    validation_filter_spec.2
      [⟨"A".data, JSNum.nan⟩, ⟨[], JSNum.num 1⟩, ⟨"B".data, JSNum.posInf⟩]
      true initGateState (by decide)⟩

/-- C7: a cycle that issues no write — whether because no characteristic is
bound or because the delta filter suppressed it — leaves the Output Gate
state exactly as it was and shows no error, so the filter always compares
against the last *sent* value. -/
theorem gate_state_unchanged_when_no_send (w conn : Bool) (st : GateState)
    (name : JSString) (conf : ℚ)
    (h : (sendToMicrobit w conn st name conf).written = none) :
    (sendToMicrobit w conn st name conf).state = st ∧
    (sendToMicrobit w conn st name conf).errorShown = false := by
  cases conn
  · rw [sendToMicrobit_not_connected]
    exact ⟨rfl, rfl⟩
  · by_cases hc : name = st.lastSentClass ∧
        |jsRound conf - st.lastSentConfidence| < 5
    · rw [sendToMicrobit_suppressed w st name conf hc]
      exact ⟨rfl, rfl⟩
    · rw [sendToMicrobit_sends w st name conf hc] at h
      exact absurd h (by simp)

/-- C7, witness: a suppressed cycle (same class, confidence moved by 2)
leaves the state untouched. -/
theorem gate_state_unchanged_when_no_send_witness :
    (sendToMicrobit true true ⟨"A".data, 90⟩ ("A".data) 92).state =
      ⟨"A".data, 90⟩ ∧
    (sendToMicrobit true true ⟨"A".data, 90⟩ ("A".data) 92).errorShown =
      false :=
  gate_state_unchanged_when_no_send true true ⟨"A".data, 90⟩ ("A".data) 92
    (by
      have h92 : jsRound 92 = 92 := by norm_num [jsRound]
      rw [sendToMicrobit_suppressed true ⟨"A".data, 90⟩ ("A".data) 92
        (by constructor <;> simp [h92])])

/-- C10: when a send passes the gate, the Output Gate state is set to the
attempted class/rounded-confidence *before* the write, the write outcome
does not change the returned result beyond the logged error flag (the
function never re-throws), and an immediately repeated identical prediction
is suppressed — a failed message is never automatically retried. -/
theorem send_failure_swallowed (w : Bool) (st : GateState)
    (name : JSString) (conf : ℚ)
    (h : ¬(name = st.lastSentClass ∧
      |jsRound conf - st.lastSentConfidence| < 5)) :
    (sendToMicrobit w true st name conf).state = ⟨name, jsRound conf⟩ ∧
    (sendToMicrobit w true st name conf).written =
      some (frameSent name (jsRound conf)) ∧
    (sendToMicrobit w true st name conf).errorShown = !w ∧
    (∀ w2, sendToMicrobit w2 true ⟨name, jsRound conf⟩ name conf =
      ⟨⟨name, jsRound conf⟩, none, false⟩) := by
  rw [sendToMicrobit_sends w st name conf h]
  refine ⟨rfl, rfl, rfl, fun w2 => ?_⟩
  exact sendToMicrobit_suppressed w2 ⟨name, jsRound conf⟩ name conf
    (by constructor <;> simp)

/-- C10, witness: a failing write (`w = false`) of class `"X"` at
confidence 50 from the initial state: state updated, error logged but
swallowed, and the identical follow-up suppressed. -/
theorem send_failure_swallowed_witness :
    (sendToMicrobit false true initGateState ("X".data) 50).state =
      ⟨"X".data, jsRound 50⟩ ∧
    (sendToMicrobit false true initGateState ("X".data) 50).written =
      some (frameSent ("X".data) (jsRound 50)) ∧
    (sendToMicrobit false true initGateState ("X".data) 50).errorShown =
      !false ∧
    (∀ w2, sendToMicrobit w2 true ⟨"X".data, jsRound 50⟩ ("X".data) 50 =
      ⟨⟨"X".data, jsRound 50⟩, none, false⟩) :=
  send_failure_swallowed false initGateState ("X".data) 50
    (by simp [initGateState])

/-- C8, counterexample: the claim is false — with an empty label list and a
one-score vector (a length mismatch) the callback does not drop the cycle:
it substitutes the placeholder name and the resulting PredictionSet is
handed downstream, producing a send. -/
theorem audio_mismatch_counterexample :
    ([] : List JSString).length ≠ [JSNum.num 1].length ∧
    (audioCycle true initGateState [] [JSNum.num 1]).downstream = true ∧
    (audioCycle true initGateState [] [JSNum.num 1]).written =
      some (frameSent ("Class 0".data) 100) := by
  refine ⟨by decide, ?_, ?_⟩ <;>
  · have h100 : jsRound (numTimes100 (JSNum.num 1)) = 100 := by
      norm_num [jsRound, numTimes100]
    have hsend : sendToMicrobit true true initGateState
        ['C', 'l', 'a', 's', 's', ' ', '0'] (numTimes100 (JSNum.num 1)) =
        ⟨⟨['C', 'l', 'a', 's', 's', ' ', '0'], 100⟩,
          some (frameSent ['C', 'l', 'a', 's', 's', ' ', '0'] 100),
          false⟩ := by
      rw [sendToMicrobit_sends true initGateState
        ['C', 'l', 'a', 's', 's', ' ', '0'] (numTimes100 (JSNum.num 1))
        (by simp [initGateState]), h100]
      rfl
    have hpred : audioPredictions [] [JSNum.num 1] =
        [⟨['C', 'l', 'a', 's', 's', ' ', '0'], JSNum.num 1⟩] := by decide
    have hfil : List.filter validPred
        [⟨['C', 'l', 'a', 's', 's', ' ', '0'], JSNum.num 1⟩] =
        [⟨['C', 'l', 'a', 's', 's', ' ', '0'], JSNum.num 1⟩] := by decide
    have hsort : sortDesc
        [(⟨['C', 'l', 'a', 's', 's', ' ', '0'], JSNum.num 1⟩ : Prediction)] =
        [⟨['C', 'l', 'a', 's', 's', ' ', '0'], JSNum.num 1⟩] := by decide
    have hbg : ¬(jsToLower ['C', 'l', 'a', 's', 's', ' ', '0'] =
        backgroundName) := by decide
    simp [audioCycle, hpred, displayPredictions, hfil, hsort, hbg, hsend]

/-- C8 (amended): the audio callback zips scores positionally with the
label list, substituting a placeholder name for any missing or empty
label; the PredictionSet always has one entry per score, every entry has a
non-empty class name, and a non-empty all-finite score vector is handed
downstream even when the lengths mismatch — the cycle is not dropped and
the session never crashes (the model is a total function). -/
theorem audio_mismatch_behavior :
    (∀ (labels : List JSString) (scores : List JSNum),
        (audioPredictions labels scores).length = scores.length) ∧
    (∀ (labels : List JSString) (scores : List JSNum)
        (p : Prediction), p ∈ audioPredictions labels scores →
          p.className ≠ []) ∧
    (∀ (labels : List JSString) (scores : List JSNum)
        (connected : Bool) (st : GateState),
        (∀ s ∈ scores, isFiniteNum s = true) → scores ≠ [] →
          (audioCycle connected st labels scores).downstream = true) := by
  refine ⟨?_, ?_, ?_⟩
  · intro labels scores
    simp [audioPredictions, withIdx_length]
  · intro labels scores p hp
    rw [audioPredictions] at hp
    obtain ⟨q, _, hq⟩ := List.mem_map.mp hp
    rw [← hq]
    exact audioLabelAt_ne_nil labels q.1
  · intro labels scores connected st hfin hne
    have hall : ∀ p ∈ audioPredictions labels scores, validPred p = true := by
      intro p hp
      rw [audioPredictions] at hp
      obtain ⟨q, hq1, hq2⟩ := List.mem_map.mp hp
      rw [validPred, ← hq2]
      have h1 := audioLabelAt_ne_nil labels q.1
      have h2 : isFiniteNum q.2 = true := hfin q.2 (mem_withIdx hq1)
      simp [h1, h2]
    have hfil : List.filter validPred (audioPredictions labels scores) =
        audioPredictions labels scores := List.filter_eq_self.mpr hall
    have hlen : (audioPredictions labels scores).length = scores.length := by
      simp [audioPredictions, withIdx_length]
    have hne2 : (audioPredictions labels scores).isEmpty = false := by
      rw [List.isEmpty_eq_false_iff_exists_mem]
      rcases scores with _ | ⟨s, ss⟩
      · exact absurd rfl hne
      · simp [audioPredictions, withIdx]
    rw [audioCycle]
    simp only [displayPredictions, hfil, hne2, Bool.false_eq_true, if_false]
    split
    · rfl
    · split <;> rfl

/-- C8, witness: label list `["yes"]` with a two-score vector (mismatch):
two predictions, non-empty names, and the cycle still goes downstream. -/
theorem audio_mismatch_behavior_witness :
    (audioPredictions [("yes".data)] [JSNum.num 1, JSNum.num 0]).length =
      ([JSNum.num 1, JSNum.num 0] : List JSNum).length ∧
    ((⟨"yes".data, JSNum.num 1⟩ : Prediction)).className ≠ [] ∧
    (audioCycle true initGateState [("yes".data)]
      [JSNum.num 1, JSNum.num 0]).downstream = true :=
  ⟨audio_mismatch_behavior.1 [("yes".data)] [JSNum.num 1, JSNum.num 0],
    audio_mismatch_behavior.2.1 [("yes".data)] [JSNum.num 1, JSNum.num 0]
      ⟨"yes".data, JSNum.num 1⟩ (by decide),
    audio_mismatch_behavior.2.2 [("yes".data)] [JSNum.num 1, JSNum.num 0]
      true initGateState (by decide) (by decide)⟩

/-- C4: kind detection is a pure function of the (URL, metadata document,
weight-graph shape) triple — equal inputs give equal results — and the
sources are consulted in strict precedence: a URL verdict decides before
the metadata is ever consulted, and a metadata-field/string verdict decides
independently of the weight-graph shape. -/
theorem detect_deterministic_precedence :
    (∀ (u u2 : JSString) (m m2 : Option Metadata)
        (s s2 : Option (List (Option Int))),
        u = u2 → m = m2 → s = s2 →
          detectKind u m s = detectKind u2 m2 s2) ∧
    (∀ (u : JSString) (m : Option Metadata)
        (s : Option (List (Option Int))) (t : MType),
        detectModelTypeFromURL u = some t → detectKind u m s = some t) ∧
    (∀ (m : Metadata) (s : Option (List (Option Int))) (t : MType),
        metadataVerdict m = some t →
          detectModelTypeFromMetadata (some m) s = some t) := by
  refine ⟨?_, ?_, ?_⟩
  · intro u u2 m m2 s s2 h1 h2 h3
    rw [h1, h2, h3]
  · intro u m s t h
    simp [detectKind, h]
  · intro m s t h
    simp [detectModelTypeFromMetadata, h]

/-- C4, witness: an image-naming URL decides regardless of metadata and
shape; a metadata audio marker decides over a pose-looking 2-entry
shape. -/
theorem detect_deterministic_precedence_witness :
    detectKind ("https://tm/image/m1/".data) none none =
      detectKind ("https://tm/image/m1/".data) none none ∧
    detectKind ("https://tm/image/m1/".data) none none = some MType.image ∧
    detectModelTypeFromMetadata (some ⟨true, false, false, []⟩)
      (some [none, some 34]) = some MType.audio :=
  ⟨detect_deterministic_precedence.1 ("https://tm/image/m1/".data)
      ("https://tm/image/m1/".data) none none none none rfl rfl rfl,
    detect_deterministic_precedence.2.1 ("https://tm/image/m1/".data)
      none none MType.image (by decide),
    detect_deterministic_precedence.2.2 ⟨true, false, false, []⟩
      (some [none, some 34]) MType.audio (by decide)⟩

/-- C5: the weight-graph input-shape step maps a 2-entry shape to pose; a
4-entry shape with channel depth 1 and spatial size other than 224×224 to
audio; a 4-entry shape with 3 channels at 224×224 to image; and every
shape matching none of these to the image default — the mapping is a total
function, so no error is ever raised. -/
theorem input_shape_mapping :
    (∀ b n : Option Int, detectFromShape (some [b, n]) = MType.pose) ∧
    (∀ b h w : Option Int, (h ≠ some 224 ∨ w ≠ some 224) →
        detectFromShape (some [b, h, w, some 1]) = MType.audio) ∧
    (∀ b : Option Int,
        detectFromShape (some [b, some 224, some 224, some 3]) =
          MType.image) ∧
    (∀ sh : Option (List (Option Int)),
        (∀ s, sh = some s → s.length ≠ 2 ∧
          ∀ b h w, s = [b, h, w, some 1] →
            h = some 224 ∧ w = some 224) →
        detectFromShape sh = MType.image) := by
  refine ⟨?_, ?_, ?_, ?_⟩
  · intro b n
    simp [detectFromShape]
  · intro b h w hw
    simp only [detectFromShape]
    rw [if_neg (by simp)]
    show (if True ∧ (h ≠ some 224 ∨ w ≠ some 224) then
      MType.audio else MType.image) = MType.audio
    rw [if_pos ⟨trivial, hw⟩]
  · intro b
    simp [detectFromShape]
  · intro sh hyp
    rcases sh with _ | s
    · rfl
    · have h1 := (hyp s rfl).1
      have h2 := (hyp s rfl).2
      match s with
      | [] => rfl
      | [x1] => rfl
      | [x1, x2] => exact absurd rfl h1
      | [x1, x2, x3] => rfl
      | [x1, x2, x3, x4] =>
        simp only [detectFromShape]
        rw [if_neg (by simp)]
        show (if x4 = some 1 ∧ (x2 ≠ some 224 ∨ x3 ≠ some 224) then
          MType.audio else MType.image) = MType.image
        by_cases hc : x4 = some 1 ∧ (x2 ≠ some 224 ∨ x3 ≠ some 224)
        · obtain ⟨hc1, hc2⟩ := hc
          obtain ⟨hh, hw⟩ := h2 x1 x2 x3 (by rw [hc1])
          rcases hc2 with h3 | h3
          · exact absurd hh h3
          · exact absurd hw h3
        · rw [if_neg hc]
      | x1 :: x2 :: x3 :: x4 :: x5 :: rest => rfl

/-- C5, witness: a pose shape `[null, 34]`, an audio shape
`[null, 43, 232, 1]`, the canonical image shape `[null, 224, 224, 3]`, and
the absent-shape default. -/
theorem input_shape_mapping_witness :
    detectFromShape (some [none, some 34]) = MType.pose ∧
    detectFromShape (some [none, some 43, some 232, some 1]) =
      MType.audio ∧
    detectFromShape (some [none, some 224, some 224, some 3]) =
      MType.image ∧
    detectFromShape none = MType.image :=
  ⟨input_shape_mapping.1 none (some 34),
    input_shape_mapping.2.1 none (some 43) (some 232)
      (Or.inl (by decide)),
    input_shape_mapping.2.2.1 none,
    input_shape_mapping.2.2.2 none
      (fun s hs => Option.noConfusion hs)⟩

/-- C6, counterexample: the claim is false when the revert acquisition
itself fails.  Starting from an active front-camera stream, with an
acquisition oracle on which no facing mode can be opened (the spec itself
notes that re-acquiring a just-released camera fails intermittently), the
switch to the back camera fails, the catch-branch re-setup for the
original mode also fails, and — the catch having no nested try — the
exception escapes `flipCamera`: it neither returns `false` nor leaves the
pre-call state with an active stream. -/
theorem flipCamera_throw_counterexample :
    flipCamera (fun _ => false) ⟨Facing.user, true⟩ = none := by decide

/-- C6 (amended): starting from an active stream, a facing-mode switch
whose new-camera acquisition fails reverts the facing mode and re-runs
the full open sequence for the original mode; *when that re-acquisition
succeeds* the call returns `false` without throwing and the post-call
state equals the pre-call state, but when the re-acquisition also fails
the exception escapes and no stream is active.  A switch whose
acquisition succeeds returns `true` with the stream active on the new
mode. -/
theorem flipCamera_revert_spec (acquire : Facing → Bool) (st : CamState)
    (hactive : st.streamActive = true) :
    (acquire (flipFacing st.facingMode) = false →
      acquire st.facingMode = true →
      flipCamera acquire st = some (st, false)) ∧
    (acquire (flipFacing st.facingMode) = true →
      flipCamera acquire st =
        some (⟨flipFacing st.facingMode, true⟩, true)) ∧
    (acquire (flipFacing st.facingMode) = false →
      acquire st.facingMode = false →
      flipCamera acquire st = none) := by
  obtain ⟨fm, sa⟩ := st
  simp only at hactive
  subst hactive
  refine ⟨?_, ?_, ?_⟩
  · intro hfail hprev
    simp only at hfail hprev
    simp [flipCamera, setupCam, hfail, hprev]
  · intro hok
    simp only at hok
    simp [flipCamera, setupCam, hok]
  · intro hfail hprev
    simp only at hfail hprev
    simp [flipCamera, setupCam, hfail, hprev]

/-- C6, witness: with only the front camera available, switching away from
it fails and restores the original state; with both cameras available the
switch succeeds; with no camera acquirable the revert fails too and the
exception escapes. -/
theorem flipCamera_revert_spec_witness :
    flipCamera (fun f => f == Facing.user) ⟨Facing.user, true⟩ =
      some (⟨Facing.user, true⟩, false) ∧
    flipCamera (fun _ => true) ⟨Facing.user, true⟩ =
      some (⟨Facing.environment, true⟩, true) ∧
    flipCamera (fun _ => false) ⟨Facing.environment, true⟩ = none :=
  ⟨(flipCamera_revert_spec (fun f => f == Facing.user)
      ⟨Facing.user, true⟩ rfl).1 (by decide) (by decide),
    (flipCamera_revert_spec (fun _ => true)
      ⟨Facing.user, true⟩ rfl).2.1 rfl,
    (flipCamera_revert_spec (fun _ => false)
      ⟨Facing.environment, true⟩ rfl).2.2 rfl rfl⟩

/-- C9: the explicit-disconnect path runs exactly the teardown routine
that the peripheral-disconnect event is registered to run; the routine
nulls the device, service and characteristic handles and clears the
externally-visible connection state; it is idempotent; and the session
reports connected exactly when the characteristic handle is non-null. -/
theorem disconnect_teardown_spec :
    (∀ st : TransportState, disconnectMicrobit st = onDisconnected st) ∧
    (∀ st : TransportState,
        onDisconnected (onDisconnected st) = onDisconnected st) ∧
    (∀ st : TransportState,
        (onDisconnected st).microbitDevice = none ∧
        (onDisconnected st).uartService = none ∧
        (onDisconnected st).rxCharacteristic = none ∧
        (onDisconnected st).uiConnected = false) ∧
    (∀ st : TransportState,
        isConnected st = true ↔ st.rxCharacteristic ≠ none) := by
  refine ⟨fun st => rfl, fun st => rfl,
    fun st => ⟨rfl, rfl, rfl, rfl⟩, fun st => ?_⟩
  simp [isConnected, Option.isSome_iff_ne_none]

end TMApp
